import Mathlib

/-!
Verification of the layout engine of the Cornell notebook generator
(`Cornell_gen_1102.py`).  Geometry is embedded over `ℚ`; each drawing
call of the reportlab backend becomes one element of a `List Prim`.
Stroke colours, dash patterns and fonts carry no geometry and are not
modelled; text measurement (`canvas.stringWidth` at the fixed font size
12) is abstracted as a parameter `measure : String → ℚ`.  Config
dictionaries become structures whose fields hold the source's
`get`-with-default values already resolved.
-/

/-- One geometric drawing primitive sent to the backend:
`line x1 y1 x2 y2` (`c.line`), `rect x y w h` (`c.rect`, lower-left
corner plus extents), `circle cx cy r` (`c.circle`), and
`text s x y` (`c.drawString`). -/
inductive Prim where
  | line (x1 y1 x2 y2 : ℚ)
  | rect (x y w h : ℚ)
  | circle (cx cy r : ℚ)
  | text (s : String) (x y : ℚ)
deriving DecidableEq, Repr

/-- Conversion factor from mm to points, the literal of the source
(`MM_TO_POINTS = 2.83464566929134`). -/
def MM_TO_POINTS : ℚ := 283464566929134 / 100000000000000

/-- One group of the four-line-three-grid: the body of the `for i in
range(n)` loop of `GridRenderer.draw_four_line_three_grid`, which draws
four horizontal lines at offsets `0`, `r1`, `r1+r2`, `r1+r2+r3` below
`base_y = y - i * total_row_height`. -/
def fourLineGroup (x y width r1 r2 r3 : ℚ) (i : ℕ) : List Prim :=
  let total := r1 + r2 + r3
  let base_y := y - (i : ℚ) * total
  [Prim.line x base_y (x + width) base_y,
   Prim.line x (base_y - r1) (x + width) (base_y - r1),
   Prim.line x (base_y - r1 - r2) (x + width) (base_y - r1 - r2),
   Prim.line x (base_y - r1 - r2 - r3) (x + width) (base_y - r1 - r2 - r3)]

/-- `GridRenderer.draw_four_line_three_grid`: `n = int(height //
total_row_height)` groups of four horizontal lines.  The source's
`row_heights` list always has exactly three entries (`[3, 3, 3]` by
default); it is passed here as `r1 r2 r3`.  The `line_spacing`
parameter exists in the source signature but is never read. -/
def draw_four_line_three_grid (x y width height : ℚ) (line_spacing r1 r2 r3 : ℚ) :
    List Prim :=
  let _ := line_spacing
  let total := r1 + r2 + r3
  ((List.range (⌊height / total⌋).toNat).map (fourLineGroup x y width r1 r2 r3)).flatten

/-- `GridRenderer.draw_dotted_grid`: `rows = int(height // dot_spacing) + 1`,
`cols = int(width // dot_spacing) + 1`, one radius-0.5 dot per
`(row, col)`. -/
def draw_dotted_grid (x y width height dot_spacing : ℚ) : List Prim :=
  let rows := (⌊height / dot_spacing⌋ + 1).toNat
  let cols := (⌊width / dot_spacing⌋ + 1).toNat
  ((List.range rows).map (fun (row : ℕ) =>
    (List.range cols).map (fun (col : ℕ) =>
      Prim.circle (x + (col : ℚ) * dot_spacing) (y - (row : ℚ) * dot_spacing) (1/2)))).flatten

/-- `GridRenderer.draw_english_grid`: `n = int(height // line_spacing)`
groups of three horizontal lines (baseline, middle at `spacing/2`,
top at `spacing`). -/
def draw_english_grid (x y width height line_spacing : ℚ) : List Prim :=
  ((List.range (⌊height / line_spacing⌋).toNat).map (fun (i : ℕ) =>
    let base_y := y - (i : ℚ) * line_spacing
    [Prim.line x base_y (x + width) base_y,
     Prim.line x (base_y - line_spacing/2) (x + width) (base_y - line_spacing/2),
     Prim.line x (base_y - line_spacing) (x + width) (base_y - line_spacing)])).flatten

/-- `GridRenderer.draw_tianzige_grid`: `rows = int(height // cell_size)`
by `cols = int(width // cell_size)` cells, each an outlined box plus a
horizontal and a vertical centre cross line. -/
def draw_tianzige_grid (x y width height cell_size : ℚ) : List Prim :=
  let rows := (⌊height / cell_size⌋).toNat
  let cols := (⌊width / cell_size⌋).toNat
  ((List.range rows).map (fun (row : ℕ) =>
    ((List.range cols).map (fun (col : ℕ) =>
      let cell_x := x + (col : ℚ) * cell_size
      let cell_y := y - (row : ℚ) * cell_size
      [Prim.rect cell_x (cell_y - cell_size) cell_size cell_size,
       Prim.line cell_x (cell_y - cell_size/2) (cell_x + cell_size) (cell_y - cell_size/2),
       Prim.line (cell_x + cell_size/2) (cell_y - cell_size) (cell_x + cell_size/2) cell_y])).flatten)).flatten

/-- Loop of `GridRenderer.draw_single_line_grid`: `while yy > y - height:
draw line at yy; yy -= line_step`.  `stop` is `y - height`.  The source
loop terminates only for a positive step, so the recursion carries the
guard `0 < step`; every claim about this generator either assumes a
positive step or starts at or below `stop`, where source and model
agree. -/
def singleLineAux (x width step yy stop : ℚ) : List Prim :=
  if h : 0 < step ∧ stop < yy then
    Prim.line x yy (x + width) yy :: singleLineAux x width step (yy - step) stop
  else []
termination_by (⌈(yy - stop) / step⌉).toNat
decreasing_by
  obtain ⟨hstep, hlt⟩ := h
  have hq : 0 < (yy - stop) / step := div_pos (by linarith) hstep
  have hceil : 0 < ⌈(yy - stop) / step⌉ := Int.ceil_pos.mpr hq
  have heq : (yy - step - stop) / step = (yy - stop) / step - 1 := by
    field_simp
    ring
  have hc : ⌈(yy - step - stop) / step⌉ = ⌈(yy - stop) / step⌉ - 1 := by
    rw [heq, Int.ceil_sub_one]
  omega

/-- `GridRenderer.draw_single_line_grid`. -/
def draw_single_line_grid (x y width height line_step : ℚ) : List Prim :=
  singleLineAux x width line_step y (y - height)

/-- Configuration consumed by `TextBoxRenderer.draw`, with the source's
per-key defaults resolved. -/
structure TextBoxConfig where
  text : String := ""
  alignment : String := "left"
  vertical_alignment : String := "top"
  text_padding : ℚ := 0
  vertical_padding : ℚ := 0
  border_enabled : Bool := true

/-- `TextBoxRenderer.draw`: optional border rectangle, then one string
at the anchor computed from the alignments (text height is the fixed
font size 12). -/
def textBoxDraw (measure : String → ℚ) (x y width height : ℚ)
    (config : TextBoxConfig) : List Prim :=
  let text_width := measure config.text
  let text_height : ℚ := 12
  let text_y :=
    if config.vertical_alignment = "top" then y + height - config.vertical_padding - text_height
    else if config.vertical_alignment = "middle" then y + height / 2 - text_height / 2
    else y + config.vertical_padding
  let text_x :=
    if config.alignment = "left" then x + config.text_padding
    else if config.alignment = "center" then x + width / 2 - text_width / 2
    else x + width - config.text_padding - text_width
  (if config.border_enabled then [Prim.rect x y width height] else []) ++
    [Prim.text config.text text_x text_y]

/-- One header field descriptor, defaults per `HeaderRenderer.draw`. -/
structure FieldConfig where
  label : String
  text_alignment : String := "left"
  text_padding : ℚ := 2
  vertical_alignment : String := "top"
  vertical_padding : ℚ := 3
  border_enabled : Bool := true

/-- Header configuration, defaults per `HeaderRenderer.draw` and the
page composer. -/
structure HeaderConfig where
  height_mm : ℚ := 0
  field_margin : ℚ := 0
  field_spacing : ℚ := 0
  field_vertical_padding : ℚ := 0
  border_enabled : Bool := true
  fields : List FieldConfig := []

/-- Field loop of `HeaderRenderer.draw`: `cursor_x` advances by each
field's actual width plus `field_spacing`. -/
def headerFields (measure : String → ℚ) (uniform_field_width fvp fspacing y : ℚ) :
    ℚ → List FieldConfig → List Prim
  | _, [] => []
  | cursor_x, f :: rest =>
    let text_width := measure f.label
    let field_width := max uniform_field_width (text_width + 2 * f.text_padding)
    let field_height := max 20 (12 + 2 * f.vertical_padding)
    let box_y := y - field_height + fvp
    textBoxDraw measure cursor_x box_y field_width field_height
      { text := f.label, text_padding := f.text_padding,
        vertical_padding := f.vertical_padding, border_enabled := f.border_enabled,
        alignment := f.text_alignment, vertical_alignment := f.vertical_alignment } ++
    headerFields measure uniform_field_width fvp fspacing y
      (cursor_x + field_width + fspacing) rest

/-- `HeaderRenderer.draw`.  In the source `uniform_field_width` is
computed only when `fields` is non-empty; here the `let` is hoisted but
its value is read only inside the field loop, which is empty exactly
when `fields` is empty, so the two agree on every input. -/
def headerDraw (measure : String → ℚ) (x y width height : ℚ)
    (config : HeaderConfig) : List Prim :=
  let field_margin := config.field_margin
  let fields := config.fields
  let total_field_width :=
    width - 2 * field_margin - ((fields.length : ℚ) - 1) * config.field_spacing
  let uniform_field_width := total_field_width / (fields.length : ℚ)
  (if config.border_enabled then [Prim.rect x y width height] else []) ++
    headerFields measure uniform_field_width config.field_vertical_padding
      config.field_spacing y (x + field_margin) fields

/-- The `quote_box` entry of a quote configuration. -/
structure QuoteBoxConfig where
  label : String
  vertical_padding : ℚ := 0

/-- Quote configuration, defaults per `QuoteBoxRenderer.draw` and the
page composer.  `quote_box := none` models a configuration whose
`quote_box` key is absent (falsy in the source's `if not quote`). -/
structure QuoteConfig where
  height_mm : ℚ := 0
  quote_box : Option QuoteBoxConfig := none
  quote_label_padding : ℚ := 0
  border_enabled : Bool := true

/-- `QuoteBoxRenderer.draw`: early return when `quote_box` is missing,
otherwise border plus one text box of height
`max(height, text_height + 2 * vertical_padding)`. -/
def quoteDraw (measure : String → ℚ) (x y width height : ℚ)
    (config : QuoteConfig) : List Prim :=
  match config.quote_box with
  | none => []
  | some quote =>
    let quote_box_height := max height (12 + 2 * quote.vertical_padding)
    (if config.border_enabled then [Prim.rect x y width quote_box_height] else []) ++
      textBoxDraw measure x y width quote_box_height
        { text := quote.label, text_padding := config.quote_label_padding,
          vertical_padding := quote.vertical_padding,
          alignment := "left", vertical_alignment := "top" }

/-- Footer configuration, defaults per `FooterRenderer.draw` and the
page composer. -/
structure FooterConfig where
  height_mm : ℚ := 0
  border_enabled : Bool := true
  review_boxes : List String := []
  review_box_top_margin : ℚ := 0
  review_box_text_padding : ℚ := 0
  review_text_alignment : String := "center"

/-- Review-box loop of `FooterRenderer.draw`, split into its layout
part: for each label, the box keeps the running `cursor_x` as its left
edge and takes width `max(box_width, text_width + 2 * text_padding)`;
the cursor then advances by that width (boxes tightly packed). -/
def footerBoxLayout (measure : String → ℚ) (box_width text_padding : ℚ) :
    ℚ → List String → List (String × ℚ × ℚ)
  | _, [] => []
  | cursor_x, label :: rest =>
    let box_w := max box_width (measure label + 2 * text_padding)
    (label, cursor_x, box_w) ::
      footerBoxLayout measure box_width text_padding (cursor_x + box_w) rest

/-- `FooterRenderer.draw`: border, then one borderless text box per
review box at the positions and widths of `footerBoxLayout`, each of
the footer's full height, shifted up by `review_box_top_margin`. -/
def footerDraw (measure : String → ℚ) (x y width height : ℚ)
    (config : FooterConfig) : List Prim :=
  let labels := config.review_boxes
  let text_padding := config.review_box_text_padding
  (if config.border_enabled then [Prim.rect x y width height] else []) ++
    (footerBoxLayout measure (width / (labels.length : ℚ)) text_padding x labels).flatMap
      (fun b =>
        textBoxDraw measure b.2.1 (y + config.review_box_top_margin) b.2.2 height
          { text := b.1, text_padding := text_padding, vertical_padding := text_padding,
            border_enabled := false, alignment := config.review_text_alignment,
            vertical_alignment := "middle" })

/-- Cornell module configuration, defaults per
`CornellModuleRenderer.draw`.  A scalar `keyword_label` string of the
source corresponds to a singleton list here (the source draws the same
single string either way). -/
structure ModuleConfig where
  line_step_mm : ℚ
  theme_height_mm : ℚ := 0
  summary_height_mm : ℚ := 0
  keyword_width_ratio : ℚ := 3/10
  line_style : String := "single_line"
  label_padding : ℚ := 0
  border_enabled : Bool := true
  title_label : String := ""
  keyword_label : List String := [""]
  summary_label : String := "总结"
  grid_line_spacing_mm : ℚ := 0
  grid_row_heights_mm : ℚ × ℚ × ℚ := (3, 3, 3)
  grid_dot_spacing_mm : ℚ := 20
  grid_cell_size_mm : ℚ := 30

/-- Label block of `CornellModuleRenderer.draw`: title label only when
`theme_h > 0`, the keyword label(s) always (stacked at `step`
increments), summary label only when `summary_h > 0`. -/
def cornellLabelPrims (x y height theme_h summary_h step label_padding : ℚ)
    (config : ModuleConfig) : List Prim :=
  (if 0 < theme_h then
      [Prim.text config.title_label (x + label_padding) (y - theme_h + theme_h / 4)]
    else []) ++
  (config.keyword_label.enum.map (fun p =>
      Prim.text p.2 (x + label_padding) (y - theme_h - step + step / 4 - (p.1 : ℚ) * step))) ++
  (if 0 < summary_h then
      [Prim.text config.summary_label (x + label_padding)
        (y - height + summary_h - step + step / 4)]
    else [])

/-- `CornellModuleRenderer._draw_four_line_three_grid_layout`: notes,
keywords, summary (two half-height rows) and title sub-regions. -/
def fourLineLayout (x y width height theme_h summary_h keyword_w ls r1 r2 r3 : ℚ) :
    List Prim :=
  draw_four_line_three_grid (x + keyword_w) (y - theme_h) (width - keyword_w)
    (height - theme_h - summary_h) ls r1 r2 r3 ++
  draw_four_line_three_grid x (y - theme_h) keyword_w
    (height - theme_h - summary_h) ls r1 r2 r3 ++
  draw_four_line_three_grid x (y - (height - summary_h)) width (summary_h / 2) ls r1 r2 r3 ++
  draw_four_line_three_grid x (y - (height - summary_h / 2)) width (summary_h / 2) ls r1 r2 r3 ++
  draw_four_line_three_grid x (y - theme_h) width theme_h ls r1 r2 r3

/-- `CornellModuleRenderer._draw_single_line_layout`: notes, keywords,
summary and title sub-regions. -/
def singleLineLayout (x y width height theme_h summary_h keyword_w step : ℚ) : List Prim :=
  draw_single_line_grid (x + keyword_w) (y - theme_h) (width - keyword_w)
    (height - theme_h - summary_h) step ++
  draw_single_line_grid x (y - theme_h) keyword_w (height - theme_h - summary_h) step ++
  draw_single_line_grid x (y - (height - summary_h)) width summary_h step ++
  draw_single_line_grid x (y - theme_h) width theme_h step

/-- `CornellModuleRenderer._draw_dotted_grid_layout`. -/
def dottedLayout (x y width height theme_h summary_h keyword_w spacing : ℚ) : List Prim :=
  draw_dotted_grid (x + keyword_w) (y - theme_h) (width - keyword_w)
    (height - theme_h - summary_h) spacing ++
  draw_dotted_grid x (y - theme_h) keyword_w (height - theme_h - summary_h) spacing ++
  draw_dotted_grid x (y - (height - summary_h)) width summary_h spacing ++
  draw_dotted_grid x (y - theme_h) width theme_h spacing

/-- `CornellModuleRenderer._draw_english_grid_layout`. -/
def englishLayout (x y width height theme_h summary_h keyword_w spacing : ℚ) : List Prim :=
  draw_english_grid (x + keyword_w) (y - theme_h) (width - keyword_w)
    (height - theme_h - summary_h) spacing ++
  draw_english_grid x (y - theme_h) keyword_w (height - theme_h - summary_h) spacing ++
  draw_english_grid x (y - (height - summary_h)) width summary_h spacing ++
  draw_english_grid x (y - theme_h) width theme_h spacing

/-- `CornellModuleRenderer._draw_tianzige_grid_layout`. -/
def tianzigeLayout (x y width height theme_h summary_h keyword_w cell : ℚ) : List Prim :=
  draw_tianzige_grid (x + keyword_w) (y - theme_h) (width - keyword_w)
    (height - theme_h - summary_h) cell ++
  draw_tianzige_grid x (y - theme_h) keyword_w (height - theme_h - summary_h) cell ++
  draw_tianzige_grid x (y - (height - summary_h)) width summary_h cell ++
  draw_tianzige_grid x (y - theme_h) width theme_h cell

/-- Grid dispatch of `CornellModuleRenderer.draw`: the `if/elif` chain
on `line_style`; any unmatched value draws no grid. -/
def cornellGridPrims (x y width height theme_h summary_h keyword_w : ℚ)
    (config : ModuleConfig) : List Prim :=
  if config.line_style = "four_line_three_grid" then
    fourLineLayout x y width height theme_h summary_h keyword_w
      (config.grid_line_spacing_mm * MM_TO_POINTS)
      (config.grid_row_heights_mm.1 * MM_TO_POINTS)
      (config.grid_row_heights_mm.2.1 * MM_TO_POINTS)
      (config.grid_row_heights_mm.2.2 * MM_TO_POINTS)
  else if config.line_style = "single_line" then
    singleLineLayout x y width height theme_h summary_h keyword_w
      (config.line_step_mm * MM_TO_POINTS)
  else if config.line_style = "dotted" then
    dottedLayout x y width height theme_h summary_h keyword_w
      (config.grid_dot_spacing_mm * MM_TO_POINTS)
  else if config.line_style = "english_grid" then
    englishLayout x y width height theme_h summary_h keyword_w
      (config.grid_line_spacing_mm * MM_TO_POINTS)
  else if config.line_style = "tianzige" then
    tianzigeLayout x y width height theme_h summary_h keyword_w
      (config.grid_cell_size_mm * MM_TO_POINTS)
  else []

/-- Divider block of `CornellModuleRenderer.draw`: title bottom line
only when `theme_h > 0`, summary top line only when `summary_h > 0`,
and the keyword/notes vertical divider always, from `y - theme_h` down
to `y - height + summary_h`. -/
def cornellDividerPrims (x y width height theme_h summary_h keyword_w : ℚ) : List Prim :=
  (if 0 < theme_h then [Prim.line x (y - theme_h) (x + width) (y - theme_h)] else []) ++
  (if 0 < summary_h then
      [Prim.line x (y - height + summary_h) (x + width) (y - height + summary_h)]
    else []) ++
  [Prim.line (x + keyword_w) (y - theme_h) (x + keyword_w) (y - height + summary_h)]

/-- `CornellModuleRenderer.draw`: outer border, section labels, grid
dispatch, then the internal dividing lines. -/
def cornellDraw (measure : String → ℚ) (x y width height : ℚ)
    (config : ModuleConfig) : List Prim :=
  let step := config.line_step_mm * MM_TO_POINTS
  let theme_h := config.theme_height_mm * MM_TO_POINTS
  let summary_h := config.summary_height_mm * MM_TO_POINTS
  let keyword_w := width * config.keyword_width_ratio
  let _ := measure
  (if config.border_enabled then [Prim.rect x (y - height) width height] else []) ++
  cornellLabelPrims x y height theme_h summary_h step config.label_padding config ++
  cornellGridPrims x y width height theme_h summary_h keyword_w config ++
  cornellDividerPrims x y width height theme_h summary_h keyword_w

/-- `PAPER_SIZES` lookup table of the source. -/
def PAPER_SIZES : List (String × (ℚ × ℚ)) :=
  [("A0", (2384, 3370)), ("A1", (1684, 2384)), ("A2", (1191, 1684)),
   ("A3", (842, 1191)), ("A4", (595, 842)), ("A5", (420, 595)),
   ("B0", (2835, 4008)), ("B1", (2004, 2835)), ("B2", (1417, 2004)),
   ("B3", (1001, 1417)), ("B4", (709, 1001)), ("B5", (499, 709))]

/-- reportlab's `A4` constant `(210*mm, 297*mm)` with
`mm = 72/25.4`, the default of `PAPER_SIZES.get(name, A4)`. -/
def rl_A4 : ℚ × ℚ := (210 * (360/127), 297 * (360/127))

/-- `PAPER_SIZES.get(page_size_name, A4)`. -/
def resolvePaperSize (name : String) : ℚ × ℚ :=
  ((PAPER_SIZES.lookup name).getD rl_A4)

/-- reportlab's `landscape`: the wider dimension first. -/
def rl_landscape (p : ℚ × ℚ) : ℚ × ℚ := (max p.1 p.2, min p.1 p.2)

/-- reportlab's `portrait`: the narrower dimension first. -/
def rl_portrait (p : ℚ × ℚ) : ℚ × ℚ := (min p.1 p.2, max p.1 p.2)

/-- `page_format` configuration with the composer's defaults. -/
structure PageFormat where
  size : String := "A4"
  orientation : String := "portrait"
  line_step_mm : ℚ := 9
  base_margin : ℚ := 0
  left_binding_margin : ℚ := 0
  right_binding_margin : ℚ := 0
  top_binding_margin : ℚ := 0
  bottom_binding_margin : ℚ := 0

/-- One page's configuration tree.  `quote := none` models a page whose
`quote` key is absent or empty (falsy in the source's `if quote_cfg`). -/
structure PageConfig where
  page_format : PageFormat := {}
  header : HeaderConfig := {}
  footer : FooterConfig := {}
  quote : Option QuoteConfig := none
  modules : List ModuleConfig := []

/-- Resolved page size `(W, H)`: named-size lookup with A4 fallback,
then the orientation swap. -/
def pageSize (config : PageConfig) : ℚ × ℚ :=
  let ps := resolvePaperSize config.page_format.size
  if config.page_format.orientation = "landscape" then rl_landscape ps else rl_portrait ps

/-- Page width `W`. -/
def pageW (config : PageConfig) : ℚ := (pageSize config).1

/-- Page height `H`. -/
def pageH (config : PageConfig) : ℚ := (pageSize config).2

/-- `header_h = header_cfg.get("height_mm", 0) * MM_TO_POINTS`. -/
def headerH (config : PageConfig) : ℚ := config.header.height_mm * MM_TO_POINTS

/-- `footer_h = footer_cfg.get("height_mm", 0) * MM_TO_POINTS`. -/
def footerH (config : PageConfig) : ℚ := config.footer.height_mm * MM_TO_POINTS

/-- `quote_h = quote_cfg.get("height_mm", 0) * MM_TO_POINTS` (0 when
the page has no quote section). -/
def quoteH (config : PageConfig) : ℚ :=
  (match config.quote with | some q => q.height_mm | none => 0) * MM_TO_POINTS

/-- `step = format.get("line_step_mm", 9) * MM_TO_POINTS`. -/
def stepOf (config : PageConfig) : ℚ := config.page_format.line_step_mm * MM_TO_POINTS

/-- `left_margin = left_binding_margin + base_margin`. -/
def leftMargin (config : PageConfig) : ℚ :=
  config.page_format.left_binding_margin + config.page_format.base_margin

/-- `right_margin = right_binding_margin + base_margin`. -/
def rightMargin (config : PageConfig) : ℚ :=
  config.page_format.right_binding_margin + config.page_format.base_margin

/-- `top_margin = top_binding_margin + base_margin`. -/
def topMargin (config : PageConfig) : ℚ :=
  config.page_format.top_binding_margin + config.page_format.base_margin

/-- `bottom_margin = bottom_binding_margin + base_margin`. -/
def bottomMargin (config : PageConfig) : ℚ :=
  config.page_format.bottom_binding_margin + config.page_format.base_margin

/-- `usable_h = H - top_margin - bottom_margin - header_h - quote_h - footer_h`. -/
def usableH (config : PageConfig) : ℚ :=
  pageH config - topMargin config - bottomMargin config - headerH config -
    quoteH config - footerH config

/-- Content width `W - left_margin - right_margin`. -/
def contentW (config : PageConfig) : ℚ :=
  pageW config - leftMargin config - rightMargin config

/-- `y = H - top_margin - header_h - quote_h`, the top of the first
module, directly below the quote band (whose bottom is `quote_y`, the
same value). -/
def moduleStartY (config : PageConfig) : ℚ :=
  pageH config - topMargin config - headerH config - quoteH config

/-- `module_h = (usable_h // (step * len(modules))) * step`. -/
def moduleH (config : PageConfig) : ℚ :=
  (⌊usableH config / (stepOf config * (config.modules.length : ℚ))⌋ : ℤ) * stepOf config

/-- Module loop of the composer: each module is drawn at the running
`y`, which then decreases by `module_h`. -/
def modulePrims (measure : String → ℚ) (left width module_h : ℚ) :
    ℚ → List ModuleConfig → List Prim
  | _, [] => []
  | y, mcfg :: rest =>
    cornellDraw measure left y width module_h mcfg ++
      modulePrims measure left width module_h (y - module_h) rest

/-- Header call of the composer. -/
def pageHeaderPrims (measure : String → ℚ) (config : PageConfig) : List Prim :=
  headerDraw measure (leftMargin config) (pageH config - topMargin config)
    (contentW config) (headerH config) config.header

/-- Quote call of the composer (skipped when the page has no quote
section). -/
def pageQuotePrims (measure : String → ℚ) (config : PageConfig) : List Prim :=
  match config.quote with
  | none => []
  | some q =>
    quoteDraw measure (leftMargin config)
      (pageH config - topMargin config - headerH config - quoteH config)
      (contentW config) (quoteH config) q

/-- Module block of the composer (skipped when no modules are
configured). -/
def pageModulePrims (measure : String → ℚ) (config : PageConfig) : List Prim :=
  match config.modules with
  | [] => []
  | _ =>
    modulePrims measure (leftMargin config) (contentW config) (moduleH config)
      (moduleStartY config) config.modules

/-- Footer call of the composer. -/
def pageFooterPrims (measure : String → ℚ) (config : PageConfig) : List Prim :=
  footerDraw measure (leftMargin config) (bottomMargin config) (contentW config)
    (footerH config) config.footer

/-- One page of `NotebookGenerator.generate`: header, quote, modules,
footer, in the source's drawing order. -/
def generatePage (measure : String → ℚ) (config : PageConfig) : List Prim :=
  pageHeaderPrims measure config ++ pageQuotePrims measure config ++
    pageModulePrims measure config ++ pageFooterPrims measure config

/-- Whole document: the geometry of every configured page in order
(pages are separated only by `showPage`, which emits no geometry). -/
def generateDoc (measure : String → ℚ) (pages : List PageConfig) : List Prim :=
  (pages.map (generatePage measure)).flatten

/-! ## Helper lemmas -/

lemma MM_TO_POINTS_pos : 0 < MM_TO_POINTS := by norm_num [MM_TO_POINTS]

lemma succ_mul_le_of_lt_toNat_floor_div {h s : ℚ} (hs : 0 < s) {i : ℕ}
    (hi : i < (⌊h / s⌋).toNat) : ((i : ℚ) + 1) * s ≤ h := by
  have h1 : (i : ℤ) + 1 ≤ ⌊h / s⌋ := by
    have := Int.lt_toNat.mp hi
    omega
  have h2 : ((i : ℚ) + 1) ≤ h / s := by exact_mod_cast Int.le_floor.mp h1
  calc ((i : ℚ) + 1) * s ≤ (h / s) * s := mul_le_mul_of_nonneg_right h2 hs.le
    _ = h := div_mul_cancel₀ h hs.ne'

lemma mul_le_of_lt_toNat_floor_div_succ {h s : ℚ} (hs : 0 < s) {i : ℕ}
    (hi : i < (⌊h / s⌋ + 1).toNat) : (i : ℚ) * s ≤ h := by
  have h1 : (i : ℤ) ≤ ⌊h / s⌋ := by
    have := Int.lt_toNat.mp hi
    omega
  have h2 : (i : ℚ) ≤ h / s := by exact_mod_cast Int.le_floor.mp h1
  calc (i : ℚ) * s ≤ (h / s) * s := mul_le_mul_of_nonneg_right h2 hs.le
    _ = h := div_mul_cancel₀ h hs.ne'

lemma toNat_floor_div_eq_zero {h s : ℚ} (hs : 0 ≤ s) (hh : h ≤ 0) :
    (⌊h / s⌋).toNat = 0 := by
  have hds : h / s ≤ 0 := div_nonpos_iff.mpr (Or.inr ⟨hh, hs⟩)
  have := Int.floor_nonpos hds
  omega

lemma toNat_floor_div_succ_eq_zero {h s : ℚ} (hs : 0 < s) (hh : h < 0) :
    (⌊h / s⌋ + 1).toNat = 0 := by
  have hds : h / s < 0 := div_neg_of_neg_of_pos hh hs
  have : ⌊h / s⌋ < 0 := by
    rw [Int.floor_lt]
    exact_mod_cast hds
  omega

lemma singleLineAux_mem_aux (x w step stop : ℚ) :
    ∀ (n : ℕ) (yy : ℚ), (⌈(yy - stop) / step⌉).toNat ≤ n →
      ∀ p ∈ singleLineAux x w step yy stop,
        ∃ e : ℚ, p = Prim.line x e (x + w) e ∧ stop < e ∧ e ≤ yy := by
  intro n
  induction n with
  | zero =>
    intro yy hle p hp
    rw [singleLineAux] at hp
    split at hp
    · rename_i hcond
      obtain ⟨hs, hlt⟩ := hcond
      exfalso
      have hq : 0 < (yy - stop) / step := div_pos (by linarith) hs
      have := Int.ceil_pos.mpr hq
      omega
    · simp at hp
  | succ n ih =>
    intro yy hle p hp
    rw [singleLineAux] at hp
    split at hp
    · rename_i hcond
      obtain ⟨hs, hlt⟩ := hcond
      rcases List.mem_cons.mp hp with rfl | hp'
      · exact ⟨yy, rfl, hlt, le_rfl⟩
      · have hmeas : (⌈(yy - step - stop) / step⌉).toNat ≤ n := by
          have heq : (yy - step - stop) / step = (yy - stop) / step - 1 := by
            field_simp
            ring
          have hc : ⌈(yy - step - stop) / step⌉ = ⌈(yy - stop) / step⌉ - 1 := by
            rw [heq, Int.ceil_sub_one]
          omega
        obtain ⟨e, rfl, he1, he2⟩ := ih (yy - step) hmeas p hp'
        exact ⟨e, rfl, he1, by linarith⟩
    · simp at hp

lemma singleLineAux_mem {x w step yy stop : ℚ} {p : Prim}
    (hp : p ∈ singleLineAux x w step yy stop) :
    ∃ e : ℚ, p = Prim.line x e (x + w) e ∧ stop < e ∧ e ≤ yy :=
  singleLineAux_mem_aux x w step stop (⌈(yy - stop) / step⌉).toNat yy le_rfl p hp

lemma singleLineAux_eq_nil {x w step yy stop : ℚ} (h : yy ≤ stop) :
    singleLineAux x w step yy stop = [] := by
  rw [singleLineAux]
  have : ¬ (0 < step ∧ stop < yy) := by
    rintro ⟨-, hlt⟩
    linarith
  simp [this]

/-- Bounding-box predicate for a primitive against the region of top-left
anchor `(x, y)`, width `w` and height `h` (the region spans
`[x, x+w] × [y-h, y]`).  Grid generators emit no text primitives, so the
text case is unconstrained. -/
def primWithin (x y w h : ℚ) : Prim → Prop
  | .line x1 y1 x2 y2 => x ≤ x1 ∧ x1 ≤ x + w ∧ x ≤ x2 ∧ x2 ≤ x + w ∧
      y - h ≤ y1 ∧ y1 ≤ y ∧ y - h ≤ y2 ∧ y2 ≤ y
  | .rect rx ry rw rh => x ≤ rx ∧ rx + rw ≤ x + w ∧ y - h ≤ ry ∧ ry + rh ≤ y
  | .circle cx cy _ => x ≤ cx ∧ cx ≤ x + w ∧ y - h ≤ cy ∧ cy ≤ y
  | .text _ _ _ => True

/-! ## Claims -/

/-- C1 counterexample: the dotted grid on the degenerate region with
`width = 0` and `height = 0` still emits one dot (`rows = cols =
floor(0/spacing) + 1 = 1`), so it is false that every grid generator
emits zero primitives on every region with zero width or height. -/
theorem C1_counterexample : draw_dotted_grid 0 0 0 0 20 = [Prim.circle 0 0 (1/2)] := by
  have h1 : (⌊(0:ℚ) / 20⌋ + 1).toNat = 1 := by norm_num
  simp only [draw_dotted_grid, h1]
  rw [show List.range 1 = [0] from rfl]
  simp only [List.map_cons, List.map_nil, List.flatten_cons, List.flatten_nil,
    List.append_nil]
  norm_num

/-- C1 (amended): the generators whose loop counts depend only on the
height (four-line-three-grid, english grid, single-line grid) emit zero
primitives whenever `height ≤ 0`; the tianzige grid emits zero
primitives whenever `width ≤ 0` or `height ≤ 0`; the dotted grid emits
zero primitives whenever `width < 0` or `height < 0` (but not at
exactly zero, and the height-only generators still emit zero-width
lines when `width = 0` with a positive height); no generator raises an
error on a degenerate region — each is total. -/
theorem C1_degenerate_regions (x y w h : ℚ) :
    (∀ ls r1 r2 r3 : ℚ, 0 < r1 + r2 + r3 → h ≤ 0 →
      draw_four_line_three_grid x y w h ls r1 r2 r3 = []) ∧
    (∀ s : ℚ, 0 < s → h ≤ 0 → draw_english_grid x y w h s = []) ∧
    (∀ step : ℚ, h ≤ 0 → draw_single_line_grid x y w h step = []) ∧
    (∀ c : ℚ, 0 < c → w ≤ 0 ∨ h ≤ 0 → draw_tianzige_grid x y w h c = []) ∧
    (∀ s : ℚ, 0 < s → w < 0 ∨ h < 0 → draw_dotted_grid x y w h s = []) := by
  refine ⟨?_, ?_, ?_, ?_, ?_⟩
  · intro ls r1 r2 r3 hT hh
    simp only [draw_four_line_three_grid]
    rw [toNat_floor_div_eq_zero hT.le hh]
    simp
  · intro s hs hh
    simp only [draw_english_grid]
    rw [toNat_floor_div_eq_zero hs.le hh]
    simp
  · intro step hh
    simp only [draw_single_line_grid]
    exact singleLineAux_eq_nil (by linarith)
  · intro c hc hwh
    simp only [draw_tianzige_grid]
    rcases hwh with hw | hh
    · rw [toNat_floor_div_eq_zero hc.le hw]
      simp
    · rw [toNat_floor_div_eq_zero hc.le hh]
      simp
  · intro s hs hwh
    simp only [draw_dotted_grid]
    rcases hwh with hw | hh
    · rw [toNat_floor_div_succ_eq_zero hs hw]
      simp
    · rw [toNat_floor_div_succ_eq_zero hs hh]
      simp

/-- C1 witness: each amended conjunct instantiated at a concrete
degenerate region. -/
theorem C1_witness :
    draw_four_line_three_grid 0 0 50 0 0 3 3 3 = [] ∧
    draw_english_grid 0 0 50 (-2) 8 = [] ∧
    draw_single_line_grid 0 0 50 0 9 = [] ∧
    draw_tianzige_grid 0 0 0 50 30 = [] ∧
    draw_dotted_grid 0 0 50 (-1) 20 = [] :=
  ⟨(C1_degenerate_regions 0 0 50 0).1 0 3 3 3 (by norm_num) le_rfl,
   (C1_degenerate_regions 0 0 50 (-2)).2.1 8 (by norm_num) (by norm_num),
   (C1_degenerate_regions 0 0 50 0).2.2.1 9 le_rfl,
   (C1_degenerate_regions 0 0 0 50).2.2.2.1 30 (by norm_num) (Or.inl le_rfl),
   (C1_degenerate_regions 0 0 50 (-1)).2.2.2.2 20 (by norm_num) (Or.inr (by norm_num))⟩

/-- C4: with a positive group height `r1+r2+r3`, the four-line-three-grid
generator draws exactly `floor(height / groupHeight)` complete groups of
4 horizontal lines each, top-down, and never a partial group; in
particular at `height = k * groupHeight` it draws exactly `k` groups,
hence `4 * k` line primitives. -/
theorem C4_four_line_group_count (x y w ls r1 r2 r3 : ℚ) (hT : 0 < r1 + r2 + r3) :
    (∀ k : ℕ, draw_four_line_three_grid x y w ((k : ℚ) * (r1 + r2 + r3)) ls r1 r2 r3 =
      ((List.range k).map (fourLineGroup x y w r1 r2 r3)).flatten) ∧
    (∀ k : ℕ,
      (draw_four_line_three_grid x y w ((k : ℚ) * (r1 + r2 + r3)) ls r1 r2 r3).length = 4 * k) ∧
    (∀ height : ℚ, draw_four_line_three_grid x y w height ls r1 r2 r3 =
      ((List.range (⌊height / (r1 + r2 + r3)⌋).toNat).map
        (fourLineGroup x y w r1 r2 r3)).flatten) ∧
    (∀ i : ℕ, (fourLineGroup x y w r1 r2 r3 i).length = 4) := by
  have hfloor : ∀ k : ℕ, (⌊(k : ℚ) * (r1 + r2 + r3) / (r1 + r2 + r3)⌋).toNat = k := by
    intro k
    rw [mul_div_cancel_right₀ _ hT.ne', Int.floor_natCast, Int.toNat_natCast]
  have h1 : ∀ k : ℕ, draw_four_line_three_grid x y w ((k : ℚ) * (r1 + r2 + r3)) ls r1 r2 r3 =
      ((List.range k).map (fourLineGroup x y w r1 r2 r3)).flatten := by
    intro k
    simp only [draw_four_line_three_grid]
    rw [hfloor k]
  have h4 : ∀ i : ℕ, (fourLineGroup x y w r1 r2 r3 i).length = 4 := by
    intro i
    simp [fourLineGroup]
  refine ⟨h1, ?_, fun height => rfl, h4⟩
  intro k
  rw [h1 k, List.length_flatten, List.map_map]
  have hcomp : (List.length ∘ fourLineGroup x y w r1 r2 r3) = fun _ => 4 := by
    funext i
    exact h4 i
  rw [hcomp, List.map_const', List.sum_replicate, List.length_range, smul_eq_mul,
    Nat.mul_comm]

/-- C4 witness: at `height = 2 * 9` with row heights `3, 3, 3`, exactly
`4 * 2` line primitives are drawn. -/
theorem C4_witness :
    (draw_four_line_three_grid 0 100 50 (((2 : ℕ) : ℚ) * (3 + 3 + 3)) 0 3 3 3).length = 4 * 2 :=
  (C4_four_line_group_count 0 100 50 0 3 3 3 (by norm_num)).2.1 2

/-- C6: an unrecognised paper-size name resolves to reportlab's A4
constant, and in the Cornell module an unrecognised `line_style` falls
through the dispatch chain so that no grid is drawn; both are total
functions, so no error is raised. -/
theorem C6_silent_fallbacks (config : ModuleConfig) (name : String)
    (hname : name ∉ PAPER_SIZES.map Prod.fst)
    (hstyle : config.line_style ∉
      ["four_line_three_grid", "single_line", "dotted", "english_grid", "tianzige"]) :
    resolvePaperSize name = rl_A4 ∧
    ∀ x y w h theme_h summary_h keyword_w : ℚ,
      cornellGridPrims x y w h theme_h summary_h keyword_w config = [] := by
  constructor
  · simp [PAPER_SIZES] at hname
    obtain ⟨h0, h1, h2, h3, h4, h5, h6, h7, h8, h9, h10, h11⟩ := hname
    simp [resolvePaperSize, PAPER_SIZES, List.lookup_cons, beq_false_of_ne h0,
      beq_false_of_ne h1, beq_false_of_ne h2, beq_false_of_ne h3, beq_false_of_ne h4,
      beq_false_of_ne h5, beq_false_of_ne h6, beq_false_of_ne h7, beq_false_of_ne h8,
      beq_false_of_ne h9, beq_false_of_ne h10, beq_false_of_ne h11]
  · simp at hstyle
    obtain ⟨s0, s1, s2, s3, s4⟩ := hstyle
    intro x y w h theme_h summary_h keyword_w
    simp [cornellGridPrims, s0, s1, s2, s3, s4]

/-- C6 witness: paper size `"Letter"` is not in the table and resolves
to A4; `line_style := "blank"` matches no dispatch branch and draws no
grid. -/
theorem C6_witness :
    resolvePaperSize "Letter" = rl_A4 ∧
    cornellGridPrims 0 0 100 100 0 0 30 { line_step_mm := 9, line_style := "blank" } = [] := by
  have h := C6_silent_fallbacks { line_step_mm := 9, line_style := "blank" } "Letter"
    (by simp [PAPER_SIZES]) (by simp)
  exact ⟨h.1, h.2 0 0 100 100 0 0 30⟩

/-- C8: the renderer is a pure function of the configuration document
(and the fixed text-measurement function): any two runs over the same
document produce the identical sequence of geometry primitives. -/
theorem C8_render_deterministic (measure : String → ℚ) (pages : List PageConfig)
    (out1 out2 : List Prim) (h1 : out1 = generateDoc measure pages)
    (h2 : out2 = generateDoc measure pages) : out1 = out2 :=
  h1.trans h2.symm

/-- C8 witness: two renders of a one-page document coincide. -/
theorem C8_witness :
    generateDoc (fun _ => 6) [{}] = generateDoc (fun _ => 6) [{}] :=
  C8_render_deterministic (fun _ => 6) [{}] _ _ rfl rfl

/-- C9: with an empty (or absent) fields list the header renderer emits
only the border rectangle (when enabled) and no field boxes or text;
the uniform field width is consumed only inside the per-field loop,
which is empty, so the draw is total. -/
theorem C9_header_no_fields (measure : String → ℚ) (x y w h : ℚ) (config : HeaderConfig)
    (hf : config.fields = []) :
    headerDraw measure x y w h config =
      if config.border_enabled then [Prim.rect x y w h] else [] := by
  simp only [headerDraw, hf]
  simp [headerFields]

/-- C9 witness: a default header config (no fields) draws exactly its
border rectangle. -/
theorem C9_witness :
    headerDraw (fun _ => 42) 10 700 500 30 {} = [Prim.rect 10 700 500 30] := by
  simpa using C9_header_no_fields (fun _ => 42) 10 700 500 30 {} rfl

/-- C10: a page whose quote section has positive height but no
`quote_box` entry still reserves the quote band: the quote renderer
returns early and emits nothing, while the usable height subtracts the
quote height and the modules start below the reserved band. -/
theorem C10_quote_reserved (measure : String → ℚ) (config : PageConfig) (q : QuoteConfig)
    (hq : config.quote = some q) (hbox : q.quote_box = none) (hpos : 0 < q.height_mm) :
    pageQuotePrims measure config = [] ∧
    quoteH config = q.height_mm * MM_TO_POINTS ∧
    usableH config = pageH config - topMargin config - bottomMargin config -
      headerH config - q.height_mm * MM_TO_POINTS - footerH config ∧
    moduleStartY config = pageH config - topMargin config - headerH config -
      q.height_mm * MM_TO_POINTS := by
  have hqh : quoteH config = q.height_mm * MM_TO_POINTS := by
    simp [quoteH, hq]
  refine ⟨?_, hqh, ?_, ?_⟩
  · simp [pageQuotePrims, hq, quoteDraw, hbox]
  · simp [usableH, hqh]
  · simp [moduleStartY, hqh]

/-- C10 witness: a page with a 10 mm quote band and no quote text draws
no quote primitives yet shifts the module start down by the band. -/
theorem C10_witness :
    pageQuotePrims (fun _ => 0) { quote := some { height_mm := 10 } } = [] ∧
    moduleStartY { quote := some { height_mm := 10 } } =
      pageH { quote := some { height_mm := 10 } } -
        topMargin { quote := some { height_mm := 10 } } -
        headerH { quote := some { height_mm := 10 } } - 10 * MM_TO_POINTS := by
  have h := C10_quote_reserved (fun _ => 0) { quote := some { height_mm := 10 } }
    { height_mm := 10 } rfl rfl (by norm_num)
  exact ⟨h.1, h.2.2.2⟩

lemma footerBoxLayout_widths (measure : String → ℚ) (bw tp : ℚ) :
    ∀ (labels : List String) (c : ℚ),
      (footerBoxLayout measure bw tp c labels).map (fun b => b.2.2) =
        labels.map (fun l => max bw (measure l + 2 * tp)) := by
  intro labels
  induction labels with
  | nil => intro c; rfl
  | cons l rest ih =>
    intro c
    simp only [footerBoxLayout, List.map_cons]
    rw [ih]

lemma footerBoxLayout_uniform (measure : String → ℚ) (bw tp : ℚ) :
    ∀ (labels : List String), (∀ l ∈ labels, measure l + 2 * tp ≤ bw) →
      ∀ (c : ℚ) (k : ℕ),
        footerBoxLayout measure bw tp c labels =
          (labels.enumFrom k).map (fun p => (p.2, c + ((p.1 : ℚ) - (k : ℚ)) * bw, bw)) := by
  intro labels
  induction labels with
  | nil => intro _ c k; rfl
  | cons l rest ih =>
    intro hu c k
    have hl : max bw (measure l + 2 * tp) = bw := max_eq_left (hu l (by simp))
    simp only [footerBoxLayout, hl, List.enumFrom_cons, List.map_cons]
    have hc : c + ((k : ℚ) - (k : ℚ)) * bw = c := by ring
    rw [hc]
    rw [ih (fun a ha => hu a (by simp [ha])) (c + bw) (k + 1)]
    apply congrArg
    apply List.map_congr_left
    intro p hp
    simp only [Prod.mk.injEq, true_and, and_true]
    push_cast
    ring

/-- C7: in the footer, every review box gets width
`max(width/N, textWidth + 2*padding)`; when no label forces a wider box,
every box has the even-share width `w/N`, the boxes are packed
edge-to-edge from `x` with no gaps (box `i` starts at `x + i * (w/N)`),
and the cumulative drawn width is `N * (w/N)` (inter-box spacing is
zero in this layout). -/
theorem C7_footer_boxes (measure : String → ℚ) (x tp w : ℚ) (labels : List String)
    (hN : labels ≠ []) :
    ((footerBoxLayout measure (w / (labels.length : ℚ)) tp x labels).map (fun b => b.2.2) =
      labels.map (fun l => max (w / (labels.length : ℚ)) (measure l + 2 * tp))) ∧
    ((∀ l ∈ labels, measure l + 2 * tp ≤ w / (labels.length : ℚ)) →
      (footerBoxLayout measure (w / (labels.length : ℚ)) tp x labels =
        labels.enum.map (fun p =>
          (p.2, x + (p.1 : ℚ) * (w / (labels.length : ℚ)), w / (labels.length : ℚ)))) ∧
      (((footerBoxLayout measure (w / (labels.length : ℚ)) tp x labels).map
          (fun b => b.2.2)).sum = (labels.length : ℚ) * (w / (labels.length : ℚ)))) := by
  have _ := hN
  have h1 := footerBoxLayout_widths measure (w / (labels.length : ℚ)) tp labels x
  refine ⟨h1, fun hu => ?_⟩
  have h2 : footerBoxLayout measure (w / (labels.length : ℚ)) tp x labels =
      labels.enum.map (fun p =>
        (p.2, x + (p.1 : ℚ) * (w / (labels.length : ℚ)), w / (labels.length : ℚ))) := by
    rw [footerBoxLayout_uniform measure (w / (labels.length : ℚ)) tp labels hu x 0]
    rw [show labels.enum = labels.enumFrom 0 from rfl]
    apply List.map_congr_left
    intro p hp
    simp
  refine ⟨h2, ?_⟩
  rw [h2, List.map_map]
  have hcomp : ((fun b : String × ℚ × ℚ => b.2.2) ∘
      (fun p : ℕ × String =>
        (p.2, x + (p.1 : ℚ) * (w / (labels.length : ℚ)), w / (labels.length : ℚ)))) =
      fun _ => w / (labels.length : ℚ) := rfl
  rw [hcomp, List.map_const', List.sum_replicate, List.enum_length, nsmul_eq_mul]

/-- C7 witness: three labels of measured width 5 with padding 1 in a
30-wide footer: every box takes the even share 10, boxes sit at 0, 10,
20, and the cumulative width is `3 * 10`. -/
theorem C7_witness :
    footerBoxLayout (fun _ => 5) (30 / ((["a", "b", "c"].length : ℕ) : ℚ)) 1 0 ["a", "b", "c"] =
      (["a", "b", "c"].enum.map (fun p =>
        (p.2, 0 + (p.1 : ℚ) * (30 / ((["a", "b", "c"].length : ℕ) : ℚ)),
          30 / ((["a", "b", "c"].length : ℕ) : ℚ)))) :=
  ((C7_footer_boxes (fun _ => 5) 0 1 30 ["a", "b", "c"] (by simp)).2
    (by intro l hl; norm_num)).1

lemma modulePrims_enumFrom (measure : String → ℚ) (left width mh : ℚ) :
    ∀ (ms : List ModuleConfig) (y0 : ℚ) (k : ℕ),
      modulePrims measure left width mh y0 ms =
        (ms.enumFrom k).flatMap (fun p =>
          cornellDraw measure left (y0 - ((p.1 : ℚ) - (k : ℚ)) * mh) width mh p.2) := by
  intro ms
  induction ms with
  | nil => intro y0 k; rfl
  | cons mc rest ih =>
    intro y0 k
    simp only [modulePrims, List.enumFrom_cons, List.flatMap_cons]
    have hc : y0 - ((k : ℚ) - (k : ℚ)) * mh = y0 := by ring
    rw [hc]
    rw [ih (y0 - mh) (k + 1)]
    apply congrArg
    apply List.flatMap_congr
    intro p hp
    have hc2 : y0 - mh - ((p.1 : ℚ) - ((k : ℚ) + 1)) * mh = y0 - ((p.1 : ℚ) - (k : ℚ)) * mh := by
      ring
    rw [show (((k + 1 : ℕ)) : ℚ) = (k : ℚ) + 1 by push_cast; ring, hc2]

/-- C3: with at least one module and a positive line step, every module
gets the same height `module_h = floor(usable_h / (step * N)) * step`, a
whole multiple of the step; `N * module_h` never exceeds the usable
height (the remainder stays undrawn); the usable height subtracts both
margins and the header, quote and footer bands; and the modules are
stacked contiguously top-down from directly below the quote band, the
`i`-th module drawn at `moduleStartY - i * module_h`. -/
theorem C3_module_allocation (measure : String → ℚ) (config : PageConfig)
    (hne : config.modules ≠ []) (hstep : 0 < stepOf config) :
    moduleH config =
      (⌊usableH config / (stepOf config * (config.modules.length : ℚ))⌋ : ℤ) * stepOf config ∧
    (∃ k : ℤ, moduleH config = (k : ℚ) * stepOf config) ∧
    (config.modules.length : ℚ) * moduleH config ≤ usableH config ∧
    usableH config = pageH config - topMargin config - bottomMargin config -
      headerH config - quoteH config - footerH config ∧
    moduleStartY config = pageH config - topMargin config - headerH config - quoteH config ∧
    pageModulePrims measure config =
      config.modules.enum.flatMap (fun p =>
        cornellDraw measure (leftMargin config)
          (moduleStartY config - (p.1 : ℚ) * moduleH config)
          (contentW config) (moduleH config) p.2) := by
  have hNpos : 0 < (config.modules.length : ℚ) := by
    have hlen : config.modules.length ≠ 0 := fun h => hne (List.length_eq_zero.mp h)
    exact_mod_cast Nat.pos_of_ne_zero hlen
  refine ⟨rfl, ⟨⌊usableH config / (stepOf config * (config.modules.length : ℚ))⌋, rfl⟩,
    ?_, rfl, rfl, ?_⟩
  · have hsN : 0 < stepOf config * (config.modules.length : ℚ) := mul_pos hstep hNpos
    have hfl : ((⌊usableH config / (stepOf config * (config.modules.length : ℚ))⌋ : ℤ) : ℚ) ≤
        usableH config / (stepOf config * (config.modules.length : ℚ)) := Int.floor_le _
    have hmul := mul_le_mul_of_nonneg_right hfl hsN.le
    rw [div_mul_cancel₀ _ hsN.ne'] at hmul
    calc (config.modules.length : ℚ) * moduleH config
        = ((⌊usableH config / (stepOf config * (config.modules.length : ℚ))⌋ : ℤ) : ℚ) *
            (stepOf config * (config.modules.length : ℚ)) := by
          rw [moduleH]; ring
      _ ≤ usableH config := hmul
  · have hpm : pageModulePrims measure config =
        modulePrims measure (leftMargin config) (contentW config) (moduleH config)
          (moduleStartY config) config.modules := by
      rw [pageModulePrims]
      cases h : config.modules with
      | nil => exact absurd h hne
      | cons a l => simp [h]
    rw [hpm, modulePrims_enumFrom measure (leftMargin config) (contentW config)
      (moduleH config) config.modules (moduleStartY config) 0]
    rw [show config.modules.enum = config.modules.enumFrom 0 from rfl]
    apply List.flatMap_congr
    intro p hp
    norm_num

/-- C3 witness: a one-module page with the default 9 mm step satisfies
the allocation bound `N * module_h ≤ usable_h`. -/
theorem C3_witness :
    ((({ modules := [{ line_step_mm := 9 }] } : PageConfig)).modules.length : ℚ) *
        moduleH { modules := [{ line_step_mm := 9 }] } ≤
      usableH { modules := [{ line_step_mm := 9 }] } :=
  (C3_module_allocation (fun _ => 0) { modules := [{ line_step_mm := 9 }] }
    (by simp) (by norm_num [stepOf, MM_TO_POINTS])).2.2.1

/-- C5: in the Cornell module, a zero `theme_height` suppresses both the
title divider line and the title label; a zero `summary_height`
suppresses both the summary divider line and the summary label; and the
keyword/notes vertical divider is always drawn, spanning exactly from
`y - theme_h` (bottom of the title band) to `y - height + summary_h`
(top of the summary band). -/
theorem C5_cornell_bands (measure : String → ℚ) (x y w h : ℚ) (config : ModuleConfig) :
    (config.theme_height_mm = 0 →
      cornellDividerPrims x y w h (config.theme_height_mm * MM_TO_POINTS)
          (config.summary_height_mm * MM_TO_POINTS) (w * config.keyword_width_ratio) =
        (if 0 < config.summary_height_mm * MM_TO_POINTS then
            [Prim.line x (y - h + config.summary_height_mm * MM_TO_POINTS) (x + w)
              (y - h + config.summary_height_mm * MM_TO_POINTS)]
          else []) ++
        [Prim.line (x + w * config.keyword_width_ratio) y
          (x + w * config.keyword_width_ratio)
          (y - h + config.summary_height_mm * MM_TO_POINTS)] ∧
      cornellLabelPrims x y h (config.theme_height_mm * MM_TO_POINTS)
          (config.summary_height_mm * MM_TO_POINTS)
          (config.line_step_mm * MM_TO_POINTS) config.label_padding config =
        (config.keyword_label.enum.map (fun p =>
          Prim.text p.2 (x + config.label_padding)
            (y - config.theme_height_mm * MM_TO_POINTS -
              config.line_step_mm * MM_TO_POINTS +
              config.line_step_mm * MM_TO_POINTS / 4 -
              (p.1 : ℚ) * (config.line_step_mm * MM_TO_POINTS)))) ++
        (if 0 < config.summary_height_mm * MM_TO_POINTS then
            [Prim.text config.summary_label (x + config.label_padding)
              (y - h + config.summary_height_mm * MM_TO_POINTS -
                config.line_step_mm * MM_TO_POINTS +
                config.line_step_mm * MM_TO_POINTS / 4)]
          else [])) ∧
    (config.summary_height_mm = 0 →
      cornellDividerPrims x y w h (config.theme_height_mm * MM_TO_POINTS)
          (config.summary_height_mm * MM_TO_POINTS) (w * config.keyword_width_ratio) =
        (if 0 < config.theme_height_mm * MM_TO_POINTS then
            [Prim.line x (y - config.theme_height_mm * MM_TO_POINTS) (x + w)
              (y - config.theme_height_mm * MM_TO_POINTS)]
          else []) ++
        [Prim.line (x + w * config.keyword_width_ratio)
          (y - config.theme_height_mm * MM_TO_POINTS)
          (x + w * config.keyword_width_ratio) (y - h)] ∧
      cornellLabelPrims x y h (config.theme_height_mm * MM_TO_POINTS)
          (config.summary_height_mm * MM_TO_POINTS)
          (config.line_step_mm * MM_TO_POINTS) config.label_padding config =
        (if 0 < config.theme_height_mm * MM_TO_POINTS then
            [Prim.text config.title_label (x + config.label_padding)
              (y - config.theme_height_mm * MM_TO_POINTS +
                config.theme_height_mm * MM_TO_POINTS / 4)]
          else []) ++
        (config.keyword_label.enum.map (fun p =>
          Prim.text p.2 (x + config.label_padding)
            (y - config.theme_height_mm * MM_TO_POINTS -
              config.line_step_mm * MM_TO_POINTS +
              config.line_step_mm * MM_TO_POINTS / 4 -
              (p.1 : ℚ) * (config.line_step_mm * MM_TO_POINTS))))) ∧
    Prim.line (x + w * config.keyword_width_ratio)
        (y - config.theme_height_mm * MM_TO_POINTS)
        (x + w * config.keyword_width_ratio)
        (y - h + config.summary_height_mm * MM_TO_POINTS) ∈
      cornellDraw measure x y w h config := by
  refine ⟨?_, ?_, ?_⟩
  · intro h0
    constructor
    · simp [cornellDividerPrims, h0]
    · simp [cornellLabelPrims, h0]
  · intro h0
    constructor
    · simp [cornellDividerPrims, h0]
    · simp [cornellLabelPrims, h0]
  · simp [cornellDraw, cornellDividerPrims]

/-- C5 witness: with both band heights zero the divider block holds only
the vertical keyword divider, and that divider is in the module's full
output, spanning from the module top to its bottom. -/
theorem C5_witness :
    cornellDividerPrims 0 100 100 50 0 0 30 = [Prim.line 30 100 30 50] ∧
    Prim.line 30 100 30 50 ∈ cornellDraw (fun _ => 0) 0 100 100 50 { line_step_mm := 9 } := by
  have h := C5_cornell_bands (fun _ => 0) 0 100 100 50 { line_step_mm := 9 }
  constructor
  · have h1 := (h.1 rfl).1
    norm_num at h1
    convert h1 using 2
  · have h2 := h.2.2
    norm_num at h2
    convert h2 using 2

/-- C2: on a region of positive width and height, with nonnegative row
heights summing to a positive group height and positive spacing/step
parameters, every primitive emitted by each of the five grid generators
lies inside the region's bounding rectangle
`[x, x+width] × [y-height, y]` (line endpoints, dot centres, and the
cell boxes); the last partial repeating unit is omitted, which is what
keeps the final group, row or cell inside the far edge. -/
theorem C2_grid_within_bounds (x y w h : ℚ) (hw : 0 < w) (hh : 0 < h) :
    (∀ ls r1 r2 r3 : ℚ, 0 ≤ r1 → 0 ≤ r2 → 0 ≤ r3 → 0 < r1 + r2 + r3 →
      ∀ p ∈ draw_four_line_three_grid x y w h ls r1 r2 r3, primWithin x y w h p) ∧
    (∀ step : ℚ, 0 < step →
      ∀ p ∈ draw_single_line_grid x y w h step, primWithin x y w h p) ∧
    (∀ s : ℚ, 0 < s → ∀ p ∈ draw_dotted_grid x y w h s, primWithin x y w h p) ∧
    (∀ s : ℚ, 0 < s → ∀ p ∈ draw_english_grid x y w h s, primWithin x y w h p) ∧
    (∀ c : ℚ, 0 < c → ∀ p ∈ draw_tianzige_grid x y w h c, primWithin x y w h p) := by
  refine ⟨?_, ?_, ?_, ?_, ?_⟩
  · -- four-line-three-grid
    intro ls r1 r2 r3 hr1 hr2 hr3 hT p hp
    simp only [draw_four_line_three_grid] at hp
    rw [List.mem_flatten] at hp
    obtain ⟨l, hl, hpl⟩ := hp
    rw [List.mem_map] at hl
    obtain ⟨i, hi, rfl⟩ := hl
    rw [List.mem_range] at hi
    have key := succ_mul_le_of_lt_toNat_floor_div hT hi
    have kexp : ((i : ℚ) + 1) * (r1 + r2 + r3) =
        (i : ℚ) * (r1 + r2 + r3) + (r1 + r2 + r3) := by ring
    rw [kexp] at key
    have hi0 : 0 ≤ (i : ℚ) * (r1 + r2 + r3) :=
      mul_nonneg (Nat.cast_nonneg i) (by linarith)
    simp only [fourLineGroup, List.mem_cons, List.not_mem_nil, or_false] at hpl
    rcases hpl with rfl | rfl | rfl | rfl <;>
      · simp only [primWithin]
        and_intros <;> linarith
  · -- single-line grid
    intro step hstep p hp
    have _ := hstep
    rw [draw_single_line_grid] at hp
    obtain ⟨e, rfl, he1, he2⟩ := singleLineAux_mem hp
    simp only [primWithin]
    and_intros <;> linarith
  · -- dotted grid
    intro s hs p hp
    simp only [draw_dotted_grid] at hp
    rw [List.mem_flatten] at hp
    obtain ⟨l, hl, hpl⟩ := hp
    rw [List.mem_map] at hl
    obtain ⟨row, hrow, rfl⟩ := hl
    rw [List.mem_map] at hpl
    obtain ⟨col, hcol, rfl⟩ := hpl
    rw [List.mem_range] at hrow hcol
    have h1 : (row : ℚ) * s ≤ h := mul_le_of_lt_toNat_floor_div_succ hs hrow
    have h2 : (col : ℚ) * s ≤ w := mul_le_of_lt_toNat_floor_div_succ hs hcol
    have h3 : 0 ≤ (row : ℚ) * s := mul_nonneg (Nat.cast_nonneg _) hs.le
    have h4 : 0 ≤ (col : ℚ) * s := mul_nonneg (Nat.cast_nonneg _) hs.le
    simp only [primWithin]
    and_intros <;> linarith
  · -- english grid
    intro s hs p hp
    simp only [draw_english_grid] at hp
    rw [List.mem_flatten] at hp
    obtain ⟨l, hl, hpl⟩ := hp
    rw [List.mem_map] at hl
    obtain ⟨i, hi, rfl⟩ := hl
    rw [List.mem_range] at hi
    have key := succ_mul_le_of_lt_toNat_floor_div hs hi
    have kexp : ((i : ℚ) + 1) * s = (i : ℚ) * s + s := by ring
    rw [kexp] at key
    have hi0 : 0 ≤ (i : ℚ) * s := mul_nonneg (Nat.cast_nonneg i) hs.le
    simp only [List.mem_cons, List.not_mem_nil, or_false] at hpl
    rcases hpl with rfl | rfl | rfl <;>
      · simp only [primWithin]
        and_intros <;> linarith
  · -- tianzige grid
    intro c hc p hp
    simp only [draw_tianzige_grid] at hp
    rw [List.mem_flatten] at hp
    obtain ⟨l, hl, hpl⟩ := hp
    rw [List.mem_map] at hl
    obtain ⟨row, hrow, rfl⟩ := hl
    rw [List.mem_flatten] at hpl
    obtain ⟨l2, hl2, hpl2⟩ := hpl
    rw [List.mem_map] at hl2
    obtain ⟨col, hcol, rfl⟩ := hl2
    rw [List.mem_range] at hrow hcol
    have keyr := succ_mul_le_of_lt_toNat_floor_div hc hrow
    have keyc := succ_mul_le_of_lt_toNat_floor_div hc hcol
    have kexp1 : ((row : ℚ) + 1) * c = (row : ℚ) * c + c := by ring
    have kexp2 : ((col : ℚ) + 1) * c = (col : ℚ) * c + c := by ring
    rw [kexp1] at keyr
    rw [kexp2] at keyc
    have hr0 : 0 ≤ (row : ℚ) * c := mul_nonneg (Nat.cast_nonneg _) hc.le
    have hc0 : 0 ≤ (col : ℚ) * c := mul_nonneg (Nat.cast_nonneg _) hc.le
    simp only [List.mem_cons, List.not_mem_nil, or_false] at hpl2
    rcases hpl2 with rfl | rfl | rfl <;>
      · simp only [primWithin]
        and_intros <;> linarith

/-- C2 witness: a dot of the dotted grid on the 30x30 region at
spacing 20 lies inside the region's bounding rectangle. -/
theorem C2_witness : primWithin 0 0 30 30 (Prim.circle 0 0 (1/2)) := by
  have hmem : Prim.circle 0 0 (1/2) ∈ draw_dotted_grid 0 0 30 30 20 := by
    have h2 : ((⌊(30:ℚ) / 20⌋ + 1).toNat) = 2 := by
      rw [show ⌊(30:ℚ) / 20⌋ = 1 by norm_num]
      decide
    simp only [draw_dotted_grid, h2]
    rw [show List.range 2 = [0, 1] from rfl]
    simp only [List.map_cons, List.map_nil, List.mem_flatten, List.mem_cons]
    refine ⟨_, Or.inl rfl, ?_⟩
    simp only [List.mem_cons]
    left
    norm_num
  exact (C2_grid_within_bounds 0 0 30 30 (by norm_num) (by norm_num)).2.2.1 20
    (by norm_num) _ hmem
